import Mathlib

/-!
Verification of the ustreamer dump consumer (`src/dump/main.c`) and the
encoder backend abstraction (`src/encoder.c`) against their specification.

The C sources are shallowly embedded: the consumer loop of `_dump_sink`
becomes a step function over an explicit state and a list of per-iteration
environment events; the encoder becomes a record acted on by pure
operations parameterised by outcome oracles for the hardware calls.
Machine integers are modelled as `Nat`/`Int` (no value here approaches an
overflow boundary); monotonic time is carried in integer milliseconds.

Helpers from `libs/` (`floor_ms`, `get_now_monotonic`, `base64_encode`,
the memsink internals) are not part of the two source files; where their
behaviour decides a property they are modelled from the spec and marked
`Modelled from the spec:` in their doc comments.
-/

namespace UStreamer

/-- Frame metadata and payload, following the fields of `frame_s` used by
`src/dump/main.c` (`libs/frame.h` is outside the two sources; the field
list is exactly the one the dump loop reads).  Timestamps are monotonic
milliseconds; `data` is the byte buffer, `used` the number of valid bytes. -/
structure Frame where
  used : Nat
  width : Nat
  height : Nat
  format : Nat
  stride : Nat
  online : Nat
  grab_ts : Nat
  encode_begin_ts : Nat
  encode_end_ts : Nat
  data : List Nat
  deriving Repr, DecidableEq

/-- Modelled from the spec: `floor_ms` from `libs/tools.h` (not under the
two sources) — "a current-second marker equal to the floor in whole
seconds of the observed frame's timestamp".  With time carried in
milliseconds, the floor in whole seconds of `now` is `now / 1000`. -/
def floor_ms (now_ms : Nat) : Nat := now_ms / 1000

/-- The FPS-window state of `_dump_sink`: `fps` (last published value),
`fps_accum` and `fps_second` from `src/dump/main.c` lines 178-180,
all initialised to zero. -/
structure FpsState where
  fps : Nat
  fps_accum : Nat
  fps_second : Nat
  deriving Repr, DecidableEq

def FpsState.init : FpsState := ⟨0, 0, 0⟩

/-- One successful-read iteration of the FPS window, `src/dump/main.c`
lines 185-203: compute `now_second`; if it differs from the marker,
publish the accumulator as `fps`, reset the accumulator, move the marker
(the publication is the `LOG_PERF_FPS` line, returned as `some` value);
then increment the accumulator. -/
def fpsStep (s : FpsState) (now_ms : Nat) : FpsState × Option Nat :=
  let now_second := floor_ms now_ms
  if now_second ≠ s.fps_second then
    let published := s.fps_accum
    (⟨published, 0 + 1, now_second⟩, some published)
  else
    (⟨s.fps, s.fps_accum + 1, s.fps_second⟩, none)

/-- Folding the FPS window over a list of observation times, collecting
every published per-second value in order. -/
def fpsRun (s : FpsState) : List Nat → FpsState × List Nat
  | [] => (s, [])
  | t :: ts =>
    let (s', pub) := fpsStep s t
    let (s'', pubs) := fpsRun s' ts
    (s'', (pub.toList) ++ pubs)

/-- Modelled from the spec: the base64 alphabet of `libs/base64.c` (not
under the two sources); standard RFC 4648 encoding per the spec's
"base64-encoded payload". Maps a 6-bit value to the ASCII code of its
alphabet character (`A-Z a-z 0-9 + /`). -/
def b64Byte (n : Nat) : Nat :=
  if n < 26 then 65 + n
  else if n < 52 then 97 + (n - 26)
  else if n < 62 then 48 + (n - 52)
  else if n = 62 then 43
  else 47

/-- Inverse of the base64 alphabet: ASCII code back to its 6-bit value. -/
def b64Val (c : Nat) : Nat :=
  if 65 ≤ c ∧ c ≤ 90 then c - 65
  else if 97 ≤ c ∧ c ≤ 122 then c - 97 + 26
  else if 48 ≤ c ∧ c ≤ 57 then c - 48 + 52
  else if c = 43 then 62
  else 63

/-- ASCII code of the base64 padding character. -/
def padByte : Nat := 61

/-- Modelled from the spec: `base64_encode` of `libs/base64.c` (not under
the two sources): standard base64 with `=` padding, processing the byte
list in groups of three and emitting ASCII codes. -/
def base64Encode : List Nat → List Nat
  | [] => []
  | [b0] => [b64Byte (b0 / 4), b64Byte (b0 % 4 * 16), padByte, padByte]
  | [b0, b1] => [b64Byte (b0 / 4), b64Byte (b0 % 4 * 16 + b1 / 16), b64Byte (b1 % 16 * 4), padByte]
  | b0 :: b1 :: b2 :: rest =>
    b64Byte (b0 / 4) :: b64Byte (b0 % 4 * 16 + b1 / 16) ::
    b64Byte (b1 % 16 * 4 + b2 / 64) :: b64Byte (b2 % 64) ::
    base64Encode rest

/-- Standard base64 decoding: groups of four ASCII codes, honouring the
`=` padding of the final group. -/
def base64Decode : List Nat → List Nat
  | c0 :: c1 :: c2 :: c3 :: rest =>
    if c2 = padByte then [b64Val c0 * 4 + b64Val c1 / 16]
    else if c3 = padByte then
      [b64Val c0 * 4 + b64Val c1 / 16, b64Val c1 % 16 * 16 + b64Val c2 / 4]
    else
      (b64Val c0 * 4 + b64Val c1 / 16) ::
      (b64Val c1 % 16 * 16 + b64Val c2 / 4) ::
      (b64Val c2 % 4 * 64 + b64Val c3) ::
      base64Decode rest
  | _ => []

theorem b64Val_b64Byte {n : Nat} (h : n < 64) : b64Val (b64Byte n) = n := by
  unfold b64Byte b64Val
  split
  · rw [if_pos (by omega)]
    omega
  split
  · rw [if_neg (by omega), if_pos (by omega)]
    omega
  split
  · rw [if_neg (by omega), if_neg (by omega), if_pos (by omega)]
    omega
  split
  · rw [if_neg (by omega), if_neg (by omega), if_neg (by omega), if_pos (by omega)]
    omega
  · rw [if_neg (by omega), if_neg (by omega), if_neg (by omega), if_neg (by omega)]
    omega

theorem b64Byte_ne_pad {n : Nat} (h : n < 64) : b64Byte n ≠ padByte := by
  unfold b64Byte padByte
  split
  · omega
  split
  · omega
  split
  · omega
  split
  · omega
  · omega

theorem base64_roundtrip : ∀ bs : List Nat, (∀ b ∈ bs, b < 256) →
    base64Decode (base64Encode bs) = bs
  | [], _ => rfl
  | [b0], h => by
    have hb0 : b0 < 256 := h b0 (by simp)
    have h1 : b0 / 4 < 64 := by omega
    have h2 : b0 % 4 * 16 < 64 := by omega
    simp only [base64Encode, base64Decode, if_true]
    rw [b64Val_b64Byte h1, b64Val_b64Byte h2]
    congr 1
    omega
  | [b0, b1], h => by
    have hb0 : b0 < 256 := h b0 (by simp)
    have hb1 : b1 < 256 := h b1 (by simp)
    have h1 : b0 / 4 < 64 := by omega
    have h2 : b0 % 4 * 16 + b1 / 16 < 64 := by omega
    have h3 : b1 % 16 * 4 < 64 := by omega
    simp only [base64Encode, base64Decode, if_true]
    rw [if_neg (b64Byte_ne_pad h3)]
    rw [b64Val_b64Byte h1, b64Val_b64Byte h2, b64Val_b64Byte h3]
    congr 1
    · omega
    · congr 1
      omega
  | b0 :: b1 :: b2 :: rest, h => by
    have hb0 : b0 < 256 := h b0 (by simp)
    have hb1 : b1 < 256 := h b1 (by simp)
    have hb2 : b2 < 256 := h b2 (by simp)
    have h1 : b0 / 4 < 64 := by omega
    have h2 : b0 % 4 * 16 + b1 / 16 < 64 := by omega
    have h3 : b1 % 16 * 4 + b2 / 64 < 64 := by omega
    have h4 : b2 % 64 < 64 := by omega
    have ih := base64_roundtrip rest (fun b hb => h b (by simp [hb]))
    simp only [base64Encode, base64Decode]
    rw [if_neg (b64Byte_ne_pad h3), if_neg (b64Byte_ne_pad h4)]
    rw [b64Val_b64Byte h1, b64Val_b64Byte h2, b64Val_b64Byte h3, b64Val_b64Byte h4, ih]
    congr 1
    · omega
    congr 1
    · omega
    congr 1
    omega

/-- Decimal digit accumulator: ASCII digits of `n` prepended to `acc`,
the rendering `printf` performs for an unsigned conversion. -/
def natDecAux : Nat → List Nat → List Nat
  | 0, acc => acc
  | n + 1, acc => natDecAux ((n + 1) / 10) (((n + 1) % 10 + 48) :: acc)
decreasing_by exact Nat.div_lt_self (Nat.succ_pos n) (by norm_num)

/-- ASCII decimal rendering of a nonnegative integer (`%u` / `%zu`). -/
def natDec (n : Nat) : List Nat :=
  if n = 0 then [48] else natDecAux n []

/-- `%.3Lf` rendering of a monotonic timestamp carried in integer
milliseconds: whole seconds, a dot, and three zero-padded fraction
digits. -/
def tsBytes (ms : Nat) : List Nat :=
  natDec (ms / 1000) ++
    [46, ms % 1000 / 100 + 48, ms % 1000 / 10 % 10 + 48, ms % 1000 % 10 + 48]

/-- ASCII codes of a string literal, for the fixed pieces of the
`fprintf` format string. -/
def ascii (s : String) : List Nat :=
  s.toList.map Char.toNat

theorem natDecAux_digits : ∀ n : Nat, ∀ acc : List Nat,
    (∀ c ∈ acc, 48 ≤ c ∧ c ≤ 57) → ∀ c ∈ natDecAux n acc, 48 ≤ c ∧ c ≤ 57 := by
  intro n
  induction n using Nat.strong_induction_on with
  | _ n ih =>
    match n with
    | 0 =>
      intro acc hacc c hc
      simp only [natDecAux] at hc
      exact hacc c hc
    | m + 1 =>
      intro acc hacc c hc
      simp only [natDecAux] at hc
      refine ih ((m + 1) / 10) (Nat.div_lt_self (Nat.succ_pos m) (by norm_num)) _ ?_ c hc
      intro d hd
      rcases List.mem_cons.mp hd with h | h
      · subst h
        have := Nat.mod_lt (m + 1) (y := 10) (by norm_num)
        omega
      · exact hacc d h

theorem natDec_digits (n : Nat) : ∀ c ∈ natDec n, 48 ≤ c ∧ c ≤ 57 := by
  unfold natDec
  split
  · intro c hc
    simp at hc
    omega
  · exact natDecAux_digits n [] (by intro c hc; simp at hc)

theorem tsBytes_range (ms : Nat) : ∀ c ∈ tsBytes ms, 46 ≤ c ∧ c ≤ 57 := by
  unfold tsBytes
  intro c hc
  rcases List.mem_append.mp hc with h | h
  · have := natDec_digits (ms / 1000) c h
    omega
  · have h100 : ms % 1000 < 1000 := Nat.mod_lt _ (by norm_num)
    simp only [List.mem_cons, List.not_mem_nil, or_false] at h
    rcases h with h | h | h | h <;> omega

theorem b64Byte_range (n : Nat) : 43 ≤ b64Byte n ∧ b64Byte n ≤ 122 := by
  unfold b64Byte
  split
  · omega
  split
  · omega
  split
  · omega
  split
  · omega
  · omega

theorem base64Encode_range : ∀ bs : List Nat, ∀ c ∈ base64Encode bs, 43 ≤ c ∧ c ≤ 122
  | [], c, hc => by simp [base64Encode] at hc
  | [b0], c, hc => by
    simp only [base64Encode, List.mem_cons, List.not_mem_nil, or_false] at hc
    rcases hc with h | h | h | h
    all_goals first
      | (subst h; exact b64Byte_range _)
      | (subst h; unfold padByte; omega)
  | [b0, b1], c, hc => by
    simp only [base64Encode, List.mem_cons, List.not_mem_nil, or_false] at hc
    rcases hc with h | h | h | h
    all_goals first
      | (subst h; exact b64Byte_range _)
      | (subst h; unfold padByte; omega)
  | b0 :: b1 :: b2 :: rest, c, hc => by
    simp only [base64Encode, List.mem_cons] at hc
    rcases hc with h | h | h | h | h
    · subst h; exact b64Byte_range _
    · subst h; exact b64Byte_range _
    · subst h; exact b64Byte_range _
    · subst h; exact b64Byte_range _
    · exact base64Encode_range rest c h

/-- The payload `_dump_sink` writes in raw mode:
`fwrite(frame->data, 1, frame->used, output_fp)`. -/
def rawRecord (f : Frame) : List Nat :=
  f.data.take f.used

/-- The JSON line `_dump_sink` writes in json mode, following the
`fprintf` format string of `src/dump/main.c` lines 208-216 byte for byte
(10 is the terminating newline). -/
def jsonRecord (f : Frame) : List Nat :=
  ascii "\x7b\"size\": " ++ natDec f.used ++
  ascii ", \"width\": " ++ natDec f.width ++
  ascii ", \"height\": " ++ natDec f.height ++
  ascii ", \"format\": " ++ natDec f.format ++
  ascii ", \"stride\": " ++ natDec f.stride ++
  ascii ", \"online\": " ++ natDec f.online ++
  ascii ", \"grab_ts\": " ++ tsBytes f.grab_ts ++
  ascii ", \"encode_begin_ts\": " ++ tsBytes f.encode_begin_ts ++
  ascii ", \"encode_end_ts\": " ++ tsBytes f.encode_end_ts ++
  ascii ", \"data\": \"" ++ base64Encode (f.data.take f.used) ++
  ascii "\"\x7d" ++ [10]

/-- One iteration's environment for the consumer loop: the return code of
`memsink_client_get` (0 = a new frame, -2 = timeout, anything else =
error, matching how `src/dump/main.c` lines 183 and 222 test it), and,
when `ret = 0`, the frame contents placed in the reusable buffer and the
`get_now_monotonic()` observation time in milliseconds. -/
structure ReadEvent where
  ret : Int
  frame : Frame
  now_ms : Nat
  deriving Repr, DecidableEq

/-- Output actions performed against the output stream. -/
inductive Action where
  | write (bytes : List Nat)
  | flush
  deriving Repr, DecidableEq

/-- Where `_dump_sink` sends its output, lines 161-172: the process's
standard output for path `-`, or an opened regular file. -/
inductive OutDest where
  | stdoutDest
  | fileDest (path : String)
  deriving Repr, DecidableEq

/-- Result of one loop iteration. -/
inductive StepRes where
  | next (s : FpsState) (pubs : List Nat) (acts : List Action)
  | abort
  deriving Repr, DecidableEq

/-- One iteration of the `while (!stop)` loop of `_dump_sink`
(lines 182-225): `ret = 0` updates the FPS window and emits (write then
flush) when an output stream exists; `ret ≠ 0 ∧ ret ≠ -2` jumps to the
error exit; `ret = -2` (timeout) does nothing and retries. -/
def dumpStep (out : Option OutDest) (json : Bool) (s : FpsState) (ev : ReadEvent) : StepRes :=
  if ev.ret = 0 then
    let (s', pub) := fpsStep s ev.now_ms
    let acts : List Action :=
      match out with
      | none => []
      | some _ =>
        [Action.write (if json then jsonRecord ev.frame else rawRecord ev.frame), Action.flush]
    StepRes.next s' pub.toList acts
  else if ev.ret ≠ -2 then
    StepRes.abort
  else
    StepRes.next s [] []

/-- The consumer loop folded over the iterations that happen before the
stop flag is observed: final FPS state, published per-second FPS values,
output actions, and the `retval` of `_dump_sink` (0 after a clean stop,
-1 after the error exit, lines 227-231). -/
def dumpLoop (out : Option OutDest) (json : Bool) :
    FpsState → List ReadEvent → FpsState × List Nat × List Action × Int
  | s, [] => (s, [], [], 0)
  | s, ev :: evs =>
    match dumpStep out json s ev with
    | StepRes.next s' pubs acts =>
      let (s'', pubs', acts', ret) := dumpLoop out json s' evs
      (s'', pubs ++ pubs', acts ++ acts', ret)
    | StepRes.abort => (s, [], [], -1)

/-- Cleanup actions of the common exit path of `_dump_sink`
(lines 233-248). -/
inductive CleanupAct where
  | closeOutput
  | destroySink
  | destroyFrame
  deriving Repr, DecidableEq

/-- Overall outcome of one `_dump_sink` invocation. -/
structure DumpResult where
  retval : Int
  dest : Option OutDest
  sinkAttached : Bool
  loopIterations : Nat
  pubs : List Nat
  acts : List Action
  cleanup : List CleanupAct
  deriving Repr, DecidableEq

/-- The cleanup sequence (lines 233-248): close the output stream only
when one was opened and it is not `stdout`; destroy the sink when it was
attached; always destroy the frame. -/
def dumpCleanup (dest : Option OutDest) (sinkAttached : Bool) : List CleanupAct :=
  (if dest.isSome ∧ dest ≠ some OutDest.stdoutDest then [CleanupAct.closeOutput] else []) ++
  (if sinkAttached then [CleanupAct.destroySink] else []) ++
  [CleanupAct.destroyFrame]

/-- `_dump_sink` of `src/dump/main.c`: resolve the output destination
(lines 161-172; empty or missing path means consume-only), attach the
sink (line 174, success given by the `sinkOk` oracle; `fopenOk` is the
`fopen` oracle), run the loop over the iterations occurring before stop,
and perform cleanup.  Early failures take the error exit with
`retval = -1` before any loop iteration runs. -/
def dump_sink (path : Option String) (json : Bool) (fopenOk : Bool) (sinkOk : Bool)
    (events : List ReadEvent) : DumpResult :=
  let destRes : Option (Option OutDest) :=
    match path with
    | none => some none
    | some p =>
      if p = "" then some none
      else if p = "-" then some (some OutDest.stdoutDest)
      else if fopenOk then some (some (OutDest.fileDest p))
      else none
  match destRes with
  | none => ⟨-1, none, false, 0, [], [], dumpCleanup none false⟩
  | some dest =>
    if sinkOk then
      let r := dumpLoop dest json FpsState.init events
      ⟨r.2.2.2, dest, true, events.length, r.2.1, r.2.2.1, dumpCleanup dest true⟩
    else
      ⟨-1, dest, false, 0, [], [], dumpCleanup dest false⟩

/-- The argument handling of `main` after option parsing
(`src/dump/main.c` lines 114-121): a missing or empty `--sink` prints a
message and returns 1 before `_dump_sink` runs; otherwise the process
exit code is the absolute value of the `_dump_sink` return. -/
def mainModel (sinkName : Option String) (path : Option String) (json : Bool)
    (fopenOk : Bool) (sinkOk : Bool) (events : List ReadEvent) : Nat × Option DumpResult :=
  match sinkName with
  | none => (1, none)
  | some s =>
    if s = "" then (1, none)
    else
      let r := dump_sink path json fopenOk sinkOk events
      (r.retval.natAbs, some r)

/-! ## Encoder backend abstraction (`src/encoder.c`)

The hardware (OMX) backend is compiled in (`OMX_ENCODER` defined): the
spec's hardware claims are about platforms where it exists.  The outcome
of each external hardware call (`omx_encoder_init`,
`omx_encoder_prepare_live`, `omx_encoder_compress_buffer`) is supplied by
an oracle argument. -/

/-- `enum encoder_type_t`. -/
inductive EncType where
  | unknown
  | cpu
  | omx
  deriving Repr, DecidableEq

/-- `struct encoder_runtime_t`: the runtime variant tag and the
worker-indexed array of optional hardware instances (`omxs`/`n_omxs`).
`none` models a NULL `omxs` pointer; a `none` slot models a NULL
instance. -/
structure EncRun where
  type : EncType
  omxs : Option (List (Option Nat))
  deriving Repr, DecidableEq

/-- `struct encoder_t`: the selected variant, the JPEG quality, and the
runtime state. -/
structure Encoder where
  type : EncType
  quality : Nat
  run : EncRun
  deriving Repr, DecidableEq

/-- `encoder_init` (lines 49-61): runtime and selected variant default to
CPU, quality 80, no hardware instances. -/
def encoder_init : Encoder :=
  ⟨EncType.cpu, 80, ⟨EncType.cpu, none⟩⟩

/-- Log lines relevant to the claims. -/
inductive LogEv where
  | clampWorkers (forced : Nat)
  | fallbackPrepare
  | fallbackLive
  | fallbackCompress
  deriving Repr, DecidableEq

/-- The allocation loop of `encoder_prepare` (lines 88-93): slot `i` gets
`omx_encoder_init()`; on the first failure the loop is left, the
remaining calloc-zeroed slots staying NULL.  Returns the slot array and
whether every allocation succeeded. -/
def fillSlots (alloc : Nat → Option Nat) : Nat → Nat → List (Option Nat) × Bool
  | _, 0 => ([], true)
  | i, n + 1 =>
    match alloc i with
    | none => (List.replicate (n + 1) none, false)
    | some h =>
      let (rest, ok) := fillSlots alloc (i + 1) n
      (some h :: rest, ok)

/-- `encoder_prepare` (lines 65-105): copy the selected variant into the
runtime tag; for the hardware variant, clamp the worker count to
`OMX_MAX_ENCODERS` (logged, not fatal), allocate one instance per slot,
and on any allocation failure fall back to CPU (`use_fallback`).  The C
function is `void`: it always returns, the triple being the new encoder,
the (possibly clamped) `dev->n_workers`, and the log lines. -/
def encoder_prepare (maxEncoders : Nat) (alloc : Nat → Option Nat)
    (e : Encoder) (n_workers : Nat) : Encoder × Nat × List LogEv :=
  let e1 : Encoder := { e with run := { e.run with type := e.type } }
  match e1.run.type with
  | EncType.omx =>
    let clamped := n_workers > maxEncoders
    let w := if clamped then maxEncoders else n_workers
    let clampLogs := if clamped then [LogEv.clampWorkers maxEncoders] else []
    let sl := fillSlots alloc 0 w
    if sl.2 then
      ({ e1 with run := { e1.run with omxs := some sl.1 } }, w, clampLogs)
    else
      ({ e1 with run := { type := EncType.cpu, omxs := some sl.1 } }, w,
        clampLogs ++ [LogEv.fallbackPrepare])
  | _ => (e1, n_workers, [])

/-- `encoder_prepare_live` (lines 133-155): for the hardware variant,
push the device geometry to every instance; the first failure jumps to
`use_fallback`, flipping the runtime tag to CPU for good.  `liveOk i`
tells whether `omx_encoder_prepare_live` on instance `i` succeeds. -/
def encoder_prepare_live (liveOk : Nat → Bool) (e : Encoder) : Encoder × List LogEv :=
  match e.run.type with
  | EncType.omx =>
    let n := (e.run.omxs.getD []).length
    if (List.range n).all liveOk then (e, [])
    else ({ e with run := { e.run with type := EncType.cpu } }, [LogEv.fallbackLive])
  | _ => (e, [])

/-- A codec invocation made by `encoder_compress_buffer`: the CPU codec,
or the hardware instance read from slot `worker` of the runtime array. -/
inductive CompressCall where
  | cpu
  | omx (worker : Nat) (handle : Option Nat)
  deriving Repr, DecidableEq

/-- `encoder_compress_buffer` (lines 159-184): the CPU variant routes to
`jpeg_encoder_compress_buffer` and returns 0; the hardware variant routes
to `run->omxs[worker_number]`, and on failure (`hwOk = false`) flips the
runtime tag to CPU and returns -1 without invoking the CPU codec for this
frame. -/
def encoder_compress_buffer (hwOk : Bool) (e : Encoder) (worker : Nat) :
    Encoder × Int × List CompressCall :=
  match e.run.type with
  | EncType.cpu => (e, 0, [CompressCall.cpu])
  | EncType.omx =>
    let inst := (e.run.omxs.getD []).getD worker none
    if hwOk then (e, 0, [CompressCall.omx worker inst])
    else ({ e with run := { e.run with type := EncType.cpu } }, -1,
      [CompressCall.omx worker inst])
  | EncType.unknown => (e, 0, [])

/-- The encoder operations the fallback-monotonicity claim quantifies
over: live re-preparations and per-frame compressions, each with its
hardware outcome oracle. -/
inductive EncOp where
  | prepareLive (liveOk : Nat → Bool)
  | compress (hwOk : Bool) (worker : Nat)

def applyOp (e : Encoder) : EncOp → Encoder
  | EncOp.prepareLive liveOk => (encoder_prepare_live liveOk e).1
  | EncOp.compress hwOk w => (encoder_compress_buffer hwOk e w).1

def applyOps (e : Encoder) (ops : List EncOp) : Encoder :=
  ops.foldl applyOp e

/-- Teardown actions of `encoder_destroy` in execution order. -/
inductive DestroyAct where
  | releaseOmx (handle : Nat)
  | freeOmxArray
  | freeRun
  | freeEncoder
  deriving Repr, DecidableEq

/-- The heap view `encoder_destroy` acts on: whether the `encoder` and
`run` blocks are still allocated (`live`), and the `run->omxs` array
(`none` models a NULL pointer).  `free` of an already-freed block, and a
read through `encoder->run` after it was freed, are undefined behaviour
in C; the model returns `none` for them. -/
structure EncObj where
  live : Bool
  omxs : Option (List (Option Nat))
  deriving Repr, DecidableEq

/-- The heap view of a live encoder. -/
def EncObj.ofEncoder (e : Encoder) : EncObj :=
  ⟨true, e.run.omxs⟩

/-- `encoder_destroy` (lines 107-120): when `run->omxs` is non-NULL,
release every non-NULL instance in ascending slot order, then free the
array; then free `run` and the encoder itself.  The function dereferences
`encoder->run` and frees both blocks unconditionally, so running it on an
already-destroyed object is undefined behaviour (`none`). -/
def encoder_destroy (o : EncObj) : Option (EncObj × List DestroyAct) :=
  if o.live then
    let arrActs : List DestroyAct :=
      match o.omxs with
      | none => []
      | some slots =>
        (slots.filterMap id).map DestroyAct.releaseOmx ++ [DestroyAct.freeOmxArray]
    some (⟨false, none⟩, arrActs ++ [DestroyAct.freeRun, DestroyAct.freeEncoder])
  else
    none

/-! ## Claim theorems -/

/-- C1: FPS windowing of the consumer loop.  The loop keeps an
accumulator and a current-second marker equal to the floor in whole
seconds of the observed frame's timestamp; on each observed frame whose
floor-second differs from the marker it publishes the accumulator as the
just-completed second's FPS, resets the accumulator to zero, updates the
marker, and then increments the accumulator; for frames observed at
monotonic seconds [0.1, 0.3, 0.5, 0.9, 1.2, 1.4] (milliseconds
[100, 300, 500, 900, 1200, 1400]), the FPS published for completed
second 0 equals 4, published at the 1.2 observation (nothing is published
during the first four observations; the publication list becomes [4]
exactly when the 1200 ms observation is processed). -/
theorem fps_windowing :
    (∀ (s : FpsState) (now_ms : Nat),
      (floor_ms now_ms ≠ s.fps_second →
        fpsStep s now_ms = (⟨s.fps_accum, 1, floor_ms now_ms⟩, some s.fps_accum)) ∧
      (floor_ms now_ms = s.fps_second →
        fpsStep s now_ms = (⟨s.fps, s.fps_accum + 1, s.fps_second⟩, none))) ∧
    fpsRun FpsState.init [100, 300, 500, 900] = (⟨0, 4, 0⟩, []) ∧
    fpsRun FpsState.init [100, 300, 500, 900, 1200] = (⟨4, 1, 1⟩, [4]) ∧
    fpsRun FpsState.init [100, 300, 500, 900, 1200, 1400] = (⟨4, 2, 1⟩, [4]) := by
  refine ⟨fun s now_ms => ⟨fun h => ?_, fun h => ?_⟩, by decide, by decide, by decide⟩
  · simp [fpsStep, h]
  · simp [fpsStep, h]

/-- Witness for C1: the publication branch at the 1.2 s observation from
the state reached after the four frames of second 0. -/
theorem fps_windowing_witness :
    fpsStep ⟨0, 4, 0⟩ 1200 = (⟨4, 1, 1⟩, some 4) :=
  (fps_windowing.1 ⟨0, 4, 0⟩ 1200).1 (by decide)

/-- C6: consumer-loop reaction to read outcomes.  A timeout result
(`ret = -2`) emits nothing, changes nothing and is silently retried — a
whole run of timeouts ends with retval 0, no publications and no output
actions; an error result (`ret ∉ {0, -2}`) aborts the loop with the
nonzero retval -1 regardless of what well-behaved iterations preceded it;
a successful read updates the FPS window and then emits (write then
flush) exactly when an output stream exists. -/
theorem read_outcome_handling :
    (∀ (out : Option OutDest) (json : Bool) (s : FpsState) (ev : ReadEvent),
      ev.ret = -2 → dumpStep out json s ev = StepRes.next s [] []) ∧
    (∀ (out : Option OutDest) (json : Bool) (s : FpsState) (ev : ReadEvent),
      ev.ret ≠ 0 → ev.ret ≠ -2 → dumpStep out json s ev = StepRes.abort) ∧
    (∀ (out : Option OutDest) (json : Bool) (s : FpsState) (ev : ReadEvent),
      ev.ret = 0 →
      dumpStep out json s ev =
        StepRes.next (fpsStep s ev.now_ms).1 (fpsStep s ev.now_ms).2.toList
          (match out with
            | none => []
            | some _ =>
              [Action.write (if json then jsonRecord ev.frame else rawRecord ev.frame),
                Action.flush])) ∧
    (∀ (out : Option OutDest) (json : Bool) (s : FpsState) (evs : List ReadEvent),
      (∀ ev ∈ evs, ev.ret = -2) → dumpLoop out json s evs = (s, [], [], 0)) ∧
    (∀ (out : Option OutDest) (json : Bool) (s : FpsState)
      (pre : List ReadEvent) (ev : ReadEvent) (post : List ReadEvent),
      (∀ e ∈ pre, e.ret = 0 ∨ e.ret = -2) → ev.ret ≠ 0 → ev.ret ≠ -2 →
      (dumpLoop out json s (pre ++ ev :: post)).2.2.2 = -1) := by
  have hstep_timeout : ∀ (out : Option OutDest) (json : Bool) (s : FpsState) (ev : ReadEvent),
      ev.ret = -2 → dumpStep out json s ev = StepRes.next s [] [] := by
    intro out json s ev h
    simp [dumpStep, h]
  have hstep_err : ∀ (out : Option OutDest) (json : Bool) (s : FpsState) (ev : ReadEvent),
      ev.ret ≠ 0 → ev.ret ≠ -2 → dumpStep out json s ev = StepRes.abort := by
    intro out json s ev h0 h2
    simp [dumpStep, h0, h2]
  have hstep_ok : ∀ (out : Option OutDest) (json : Bool) (s : FpsState) (ev : ReadEvent),
      ev.ret = 0 →
      dumpStep out json s ev =
        StepRes.next (fpsStep s ev.now_ms).1 (fpsStep s ev.now_ms).2.toList
          (match out with
            | none => []
            | some _ =>
              [Action.write (if json then jsonRecord ev.frame else rawRecord ev.frame),
                Action.flush]) := by
    intro out json s ev h
    simp [dumpStep, h]
  refine ⟨hstep_timeout, hstep_err, hstep_ok, ?_, ?_⟩
  · intro out json s evs
    induction evs generalizing s with
    | nil => intro _; rfl
    | cons ev evs ih =>
      intro h
      have hev := h ev (by simp)
      simp only [dumpLoop, hstep_timeout out json s ev hev]
      rw [ih s (fun e he => h e (by simp [he]))]
      simp
  · intro out json s pre ev post
    induction pre generalizing s with
    | nil =>
      intro _ h0 h2
      simp only [List.nil_append, dumpLoop, hstep_err out json s ev h0 h2]
    | cons e pre ih =>
      intro h h0 h2
      have he := h e (by simp)
      rcases he with he | he
      · simp only [List.cons_append, dumpLoop, hstep_ok out json s e he]
        exact ih _ (fun x hx => h x (by simp [hx])) h0 h2
      · simp only [List.cons_append, dumpLoop, hstep_timeout out json s e he]
        exact ih _ (fun x hx => h x (by simp [hx])) h0 h2

/-- Witness for C6: a timeout iteration leaves the state alone; the
singleton error run aborts with retval -1. -/
theorem read_outcome_handling_witness :
    dumpStep none false FpsState.init ⟨-2, ⟨0, 0, 0, 0, 0, 0, 0, 0, 0, []⟩, 0⟩ =
      StepRes.next FpsState.init [] [] ∧
    (dumpLoop none false FpsState.init [⟨1, ⟨0, 0, 0, 0, 0, 0, 0, 0, 0, []⟩, 0⟩]).2.2.2 = -1 :=
  ⟨read_outcome_handling.1 none false FpsState.init _ (by decide),
    read_outcome_handling.2.2.2.2 none false FpsState.init [] _ [] (by simp)
      (by decide) (by decide)⟩

/-- The observation times of the successful reads of an event list. -/
def okTimes (evs : List ReadEvent) : List Nat :=
  evs.filterMap (fun ev => if ev.ret = 0 then some ev.now_ms else none)

theorem dumpStep_timeout (out : Option OutDest) (json : Bool) (s : FpsState)
    (ev : ReadEvent) (h : ev.ret = -2) : dumpStep out json s ev = StepRes.next s [] [] := by
  simp [dumpStep, h]

theorem dumpStep_error (out : Option OutDest) (json : Bool) (s : FpsState)
    (ev : ReadEvent) (h0 : ev.ret ≠ 0) (h2 : ev.ret ≠ -2) :
    dumpStep out json s ev = StepRes.abort := by
  simp [dumpStep, h0, h2]

theorem dumpStep_ok (out : Option OutDest) (json : Bool) (s : FpsState)
    (ev : ReadEvent) (h : ev.ret = 0) :
    dumpStep out json s ev =
      StepRes.next (fpsStep s ev.now_ms).1 (fpsStep s ev.now_ms).2.toList
        (match out with
          | none => []
          | some _ =>
            [Action.write (if json then jsonRecord ev.frame else rawRecord ev.frame),
              Action.flush]) := by
  simp [dumpStep, h]

theorem dumpLoop_no_output (json : Bool) : ∀ (evs : List ReadEvent) (s : FpsState),
    (∀ ev ∈ evs, ev.ret = 0 ∨ ev.ret = -2) →
    dumpLoop none json s evs = ((fpsRun s (okTimes evs)).1, (fpsRun s (okTimes evs)).2, [], 0) := by
  intro evs
  induction evs with
  | nil =>
    intro s _
    simp [dumpLoop, okTimes, fpsRun]
  | cons ev evs ih =>
    intro s h
    rcases h ev (by simp) with h0 | h2
    · simp only [dumpLoop, dumpStep_ok none json s ev h0]
      rw [ih _ (fun e he => h e (by simp [he]))]
      simp only [okTimes, List.filterMap_cons, if_pos h0]
      simp only [fpsRun]
      rcases hstep : fpsStep s ev.now_ms with ⟨s', pub⟩
      simp [okTimes]
    · have hne : ev.ret ≠ 0 := by omega
      simp only [dumpLoop, dumpStep_timeout none json s ev h2]
      rw [ih _ (fun e he => h e (by simp [he]))]
      simp only [okTimes, List.filterMap_cons, if_neg hne]
      simp [okTimes]

/-- C10: consume-only mode.  With no `--output` path, a run whose
iterations are all successful reads or timeouts writes nothing (no output
actions at all), still maintains the FPS window exactly as the FPS
algorithm prescribes (both the internal accumulator/marker state and the
published values), runs every iteration until the stop flag ends the
loop, and exits `main` with code 0. -/
theorem consume_only_mode :
    ∀ (json fopenOk : Bool) (evs : List ReadEvent),
      (∀ ev ∈ evs, ev.ret = 0 ∨ ev.ret = -2) →
      (∀ s : FpsState, (dumpLoop none json s evs).1 = (fpsRun s (okTimes evs)).1) ∧
      dump_sink none json fopenOk true evs =
        ⟨0, none, true, evs.length, (fpsRun FpsState.init (okTimes evs)).2, [],
          [CleanupAct.destroySink, CleanupAct.destroyFrame]⟩ ∧
      mainModel (some "sink") none json fopenOk true evs =
        (0, some (dump_sink none json fopenOk true evs)) := by
  intro json fopenOk evs h
  have hloop := dumpLoop_no_output json evs
  have hd : dump_sink none json fopenOk true evs =
      ⟨(dumpLoop none json FpsState.init evs).2.2.2, none, true, evs.length,
        (dumpLoop none json FpsState.init evs).2.1,
        (dumpLoop none json FpsState.init evs).2.2.1, dumpCleanup none true⟩ := rfl
  rw [hloop FpsState.init h] at hd
  refine ⟨fun s => by rw [hloop s h], ?_, ?_⟩
  · rw [hd]
    rfl
  · simp only [mainModel]
    rw [if_neg (by decide : ¬ ("sink" : String) = "")]
    rw [hd]
    rfl

/-- Witness for C10: a concrete two-iteration consume-only run (one frame
at 0.1 s, one timeout) writes nothing and exits 0. -/
theorem consume_only_mode_witness :
    (dump_sink none false true true
        [⟨0, ⟨2, 2, 2, 2, 2, 1, 0, 0, 0, [5, 6]⟩, 100⟩, ⟨-2, ⟨0, 0, 0, 0, 0, 0, 0, 0, 0, []⟩, 0⟩]).acts = [] ∧
    (mainModel (some "sink") none false true true
        [⟨0, ⟨2, 2, 2, 2, 2, 1, 0, 0, 0, [5, 6]⟩, 100⟩, ⟨-2, ⟨0, 0, 0, 0, 0, 0, 0, 0, 0, []⟩, 0⟩]).1 = 0 := by
  have h := consume_only_mode false true
    [⟨0, ⟨2, 2, 2, 2, 2, 1, 0, 0, 0, [5, 6]⟩, 100⟩, ⟨-2, ⟨0, 0, 0, 0, 0, 0, 0, 0, 0, []⟩, 0⟩]
    (by decide)
  refine ⟨?_, ?_⟩
  · rw [h.2.1]
  · rw [h.2.2, h.2.1]

/-- C9: output path `-`.  With output path `-`, the destination of all
emission is the process's standard output stream, and the cleanup path
never closes it — whether the sink attaches or not and whatever the loop
does (clean stop or error abort); with a regular file path that opens
successfully, cleanup does close the output stream. -/
theorem stdout_never_closed :
    ∀ (json fopenOk sinkOk : Bool) (evs : List ReadEvent),
      ((dump_sink (some "-") json fopenOk sinkOk evs).dest = some OutDest.stdoutDest ∧
        CleanupAct.closeOutput ∉ (dump_sink (some "-") json fopenOk sinkOk evs).cleanup) ∧
      (∀ p : String, p ≠ "-" → p ≠ "" →
        (dump_sink (some p) json true sinkOk evs).dest = some (OutDest.fileDest p) ∧
        CleanupAct.closeOutput ∈ (dump_sink (some p) json true sinkOk evs).cleanup) := by
  intro json fopenOk sinkOk evs
  constructor
  · cases sinkOk <;> simp [dump_sink, dumpCleanup]
  · intro p hdash hempty
    cases sinkOk <;> simp [dump_sink, dumpCleanup, hdash, hempty]

/-- Witness for C9: the file branch at path "out.jpg" with an error-free
environment. -/
theorem stdout_never_closed_witness :
    (dump_sink (some "out.jpg") false true true []).dest = some (OutDest.fileDest "out.jpg") ∧
    CleanupAct.closeOutput ∈ (dump_sink (some "out.jpg") false true true []).cleanup :=
  (stdout_never_closed false true true []).2 "out.jpg" (by decide) (by decide)

/-- C4 (code evaluated at the failing input): invoking the consumer with
`--output-json` but no `--output` is *not* rejected: option handling in
`main` only validates `--sink` (`src/dump/main.c` lines 114-117), so with
a sink named "test", `output_json = true` and no output path the program
attaches the sink, runs a loop iteration (here one timeout), writes
nothing, and a clean stop exits with code 0 — not the immediate exit 1
with no sink attachment and no frame reads that the claim (and the
program's own `--help` text, "Required option --output") demands. -/
theorem output_json_without_output_runs :
    mainModel (some "test") none true true true [⟨-2, ⟨0, 0, 0, 0, 0, 0, 0, 0, 0, []⟩, 0⟩] =
      (0, some ⟨0, none, true, 1, [], [],
        [CleanupAct.destroySink, CleanupAct.destroyFrame]⟩) := by
  decide

theorem count10_natDec (n : Nat) : (natDec n).count 10 = 0 :=
  List.count_eq_zero.mpr (fun h => by have := natDec_digits n 10 h; omega)

theorem count10_tsBytes (ms : Nat) : (tsBytes ms).count 10 = 0 :=
  List.count_eq_zero.mpr (fun h => by have := tsBytes_range ms 10 h; omega)

theorem count10_base64 (bs : List Nat) : (base64Encode bs).count 10 = 0 :=
  List.count_eq_zero.mpr (fun h => by have := base64Encode_range bs 10 h; omega)

theorem infix_append_right {α : Type} (B : List α) {X R : List α} (h : X <:+: R) :
    X <:+: R ++ B := by
  obtain ⟨s, t, hst⟩ := h
  exact ⟨s, t ++ B, by rw [← hst]; simp [List.append_assoc]⟩

theorem infix_tail2 {α : Type} (P A B : List α) : (A ++ B) <:+: (P ++ A) ++ B :=
  ⟨P, [], by simp [List.append_assoc]⟩

set_option maxHeartbeats 1000000 in
/-- C8: JSON emission.  For every successfully read frame in json mode
the loop iteration performs exactly one write of the JSON record followed
by one flush; the record is a single newline-terminated line (its only
byte 10 is the final one); it contains the size, width, height, format
code, stride, online flag and the three timestamps, each rendered after
its field label, and the base64-encoded payload sitting between the
`"data": "` label and the closing quote; and base64-decoding that data
field yields the first `frame.used` bytes of the frame buffer exactly. -/
theorem json_emission (out : OutDest) (s : FpsState) (ev : ReadEvent)
    (hret : ev.ret = 0) (hbytes : ∀ b ∈ ev.frame.data, b < 256) :
    dumpStep (some out) true s ev =
      StepRes.next (fpsStep s ev.now_ms).1 (fpsStep s ev.now_ms).2.toList
        [Action.write (jsonRecord ev.frame), Action.flush] ∧
    (∃ pre, jsonRecord ev.frame = pre ++ [10] ∧ pre.count 10 = 0) ∧
    (ascii "\x7b\"size\": " ++ natDec ev.frame.used) <:+: jsonRecord ev.frame ∧
    (ascii ", \"width\": " ++ natDec ev.frame.width) <:+: jsonRecord ev.frame ∧
    (ascii ", \"height\": " ++ natDec ev.frame.height) <:+: jsonRecord ev.frame ∧
    (ascii ", \"format\": " ++ natDec ev.frame.format) <:+: jsonRecord ev.frame ∧
    (ascii ", \"stride\": " ++ natDec ev.frame.stride) <:+: jsonRecord ev.frame ∧
    (ascii ", \"online\": " ++ natDec ev.frame.online) <:+: jsonRecord ev.frame ∧
    (ascii ", \"grab_ts\": " ++ tsBytes ev.frame.grab_ts) <:+: jsonRecord ev.frame ∧
    (ascii ", \"encode_begin_ts\": " ++ tsBytes ev.frame.encode_begin_ts) <:+:
      jsonRecord ev.frame ∧
    (ascii ", \"encode_end_ts\": " ++ tsBytes ev.frame.encode_end_ts) <:+:
      jsonRecord ev.frame ∧
    (∃ pre, jsonRecord ev.frame =
      pre ++ ascii ", \"data\": \"" ++ base64Encode (ev.frame.data.take ev.frame.used) ++
        ascii "\"\x7d" ++ [10]) ∧
    base64Decode (base64Encode (ev.frame.data.take ev.frame.used)) =
      ev.frame.data.take ev.frame.used := by
  refine ⟨by simp [dumpStep_ok (some out) true s ev hret], ?_, ?_, ?_, ?_, ?_, ?_, ?_, ?_, ?_,
    ?_, ?_, ?_⟩
  · refine ⟨ascii "\x7b\"size\": " ++ natDec ev.frame.used ++
      ascii ", \"width\": " ++ natDec ev.frame.width ++
      ascii ", \"height\": " ++ natDec ev.frame.height ++
      ascii ", \"format\": " ++ natDec ev.frame.format ++
      ascii ", \"stride\": " ++ natDec ev.frame.stride ++
      ascii ", \"online\": " ++ natDec ev.frame.online ++
      ascii ", \"grab_ts\": " ++ tsBytes ev.frame.grab_ts ++
      ascii ", \"encode_begin_ts\": " ++ tsBytes ev.frame.encode_begin_ts ++
      ascii ", \"encode_end_ts\": " ++ tsBytes ev.frame.encode_end_ts ++
      ascii ", \"data\": \"" ++ base64Encode (ev.frame.data.take ev.frame.used) ++
      ascii "\"\x7d", rfl, ?_⟩
    simp only [List.count_append, count10_natDec, count10_tsBytes, count10_base64]
    decide
  · unfold jsonRecord
    iterate 20 apply infix_append_right
    exact List.infix_rfl
  · unfold jsonRecord
    iterate 18 apply infix_append_right
    exact infix_tail2 _ _ _
  · unfold jsonRecord
    iterate 16 apply infix_append_right
    exact infix_tail2 _ _ _
  · unfold jsonRecord
    iterate 14 apply infix_append_right
    exact infix_tail2 _ _ _
  · unfold jsonRecord
    iterate 12 apply infix_append_right
    exact infix_tail2 _ _ _
  · unfold jsonRecord
    iterate 10 apply infix_append_right
    exact infix_tail2 _ _ _
  · unfold jsonRecord
    iterate 8 apply infix_append_right
    exact infix_tail2 _ _ _
  · unfold jsonRecord
    iterate 6 apply infix_append_right
    exact infix_tail2 _ _ _
  · unfold jsonRecord
    iterate 4 apply infix_append_right
    exact infix_tail2 _ _ _
  · refine ⟨ascii "\x7b\"size\": " ++ natDec ev.frame.used ++
      ascii ", \"width\": " ++ natDec ev.frame.width ++
      ascii ", \"height\": " ++ natDec ev.frame.height ++
      ascii ", \"format\": " ++ natDec ev.frame.format ++
      ascii ", \"stride\": " ++ natDec ev.frame.stride ++
      ascii ", \"online\": " ++ natDec ev.frame.online ++
      ascii ", \"grab_ts\": " ++ tsBytes ev.frame.grab_ts ++
      ascii ", \"encode_begin_ts\": " ++ tsBytes ev.frame.encode_begin_ts ++
      ascii ", \"encode_end_ts\": " ++ tsBytes ev.frame.encode_end_ts, rfl⟩
  · exact base64_roundtrip _ (fun b hb => hbytes b (List.mem_of_mem_take hb))

/-- Witness for C8: a concrete JPEG-like frame; its base64 data field
decodes back to the payload. -/
theorem json_emission_witness :
    dumpStep (some OutDest.stdoutDest) true FpsState.init
        ⟨0, ⟨3, 640, 480, 1448695129, 1280, 1, 12345, 12400, 12500, [255, 216, 255, 99]⟩, 100⟩ =
      StepRes.next ⟨0, 1, 0⟩ []
        [Action.write (jsonRecord ⟨3, 640, 480, 1448695129, 1280, 1, 12345, 12400, 12500,
          [255, 216, 255, 99]⟩), Action.flush] ∧
    base64Decode (base64Encode [255, 216, 255]) = [255, 216, 255] := by
  have h := json_emission OutDest.stdoutDest FpsState.init
    ⟨0, ⟨3, 640, 480, 1448695129, 1280, 1, 12345, 12400, 12500, [255, 216, 255, 99]⟩, 100⟩
    (by decide) (by decide)
  exact ⟨h.1, h.2.2.2.2.2.2.2.2.2.2.2.2⟩

theorem fillSlots_ok_iff (alloc : Nat → Option Nat) : ∀ (n i : Nat),
    (fillSlots alloc i n).2 = true ↔ ∀ j, j < n → (alloc (i + j)).isSome = true := by
  intro n
  induction n with
  | zero =>
    intro i
    simp [fillSlots]
  | succ n ih =>
    intro i
    cases halloc : alloc i with
    | none =>
      simp only [fillSlots, halloc]
      constructor
      · intro h
        exact absurd h (by simp)
      · intro h
        have := h 0 (by omega)
        rw [Nat.add_zero, halloc] at this
        exact absurd this (by simp)
    | some v =>
      simp only [fillSlots, halloc]
      rw [ih (i + 1)]
      constructor
      · intro h j hj
        match j with
        | 0 => rw [Nat.add_zero, halloc]; rfl
        | j + 1 =>
          have := h j (by omega)
          rw [show i + 1 + j = i + (j + 1) by omega] at this
          exact this
      · intro h j hj
        have := h (j + 1) (by omega)
        rw [show i + (j + 1) = i + 1 + j by omega] at this
        exact this

theorem filterMap_id_replicate_none {α : Type} :
    ∀ m : Nat, (List.replicate m (none : Option α)).filterMap id = [] := by
  intro m
  induction m with
  | zero => rfl
  | succ m ih => simp [List.replicate_succ, List.filterMap_cons, ih]

theorem fillSlots_filterMap (alloc : Nat → Option Nat) : ∀ (n i : Nat),
    ∃ k, k ≤ n ∧
      (fillSlots alloc i n).1.filterMap id =
        (List.range k).filterMap (fun j => alloc (i + j)) ∧
      (∀ j, j < k → (alloc (i + j)).isSome = true) := by
  intro n
  induction n with
  | zero =>
    intro i
    exact ⟨0, by omega, by simp [fillSlots], by omega⟩
  | succ n ih =>
    intro i
    cases halloc : alloc i with
    | none =>
      refine ⟨0, by omega, ?_, by omega⟩
      simp only [fillSlots, halloc]
      rw [filterMap_id_replicate_none]
      simp
    | some v =>
      obtain ⟨k, hk, heq, hsome⟩ := ih (i + 1)
      refine ⟨k + 1, by omega, ?_, ?_⟩
      · simp only [fillSlots, halloc]
        rw [List.filterMap_cons]
        simp only [id]
        rw [heq]
        rw [List.range_succ_eq_map, List.filterMap_cons]
        simp only [Nat.add_zero, halloc, List.filterMap_map]
        have hfun : ((fun j => alloc (i + j)) ∘ Nat.succ) = (fun j => alloc (i + 1 + j)) := by
          funext j
          simp only [Function.comp]
          congr 1
          omega
        rw [hfun]
      · intro j hj
        match j with
        | 0 => rw [Nat.add_zero, halloc]; rfl
        | j + 1 =>
          have := hsome j (by omega)
          rw [show i + 1 + j = i + (j + 1) by omega] at this
          exact this

/-- C3: `compress(worker_index, buffer)` routing.  With the runtime
variant Software the call routes to the CPU codec and reports success
(return 0); with the hardware variant it routes to the hardware instance
owned by the worker index (slot `w` of the runtime array); on a hardware
failure the backend's runtime variant flips to Software while this one
call returns -1, and the list of codec invocations contains no CPU call —
the frame is not retried through the software codec. -/
theorem compress_routing (e : Encoder) (hwOk : Bool) (w : Nat) :
    (e.run.type = EncType.cpu →
      encoder_compress_buffer hwOk e w = (e, 0, [CompressCall.cpu])) ∧
    (e.run.type = EncType.omx → hwOk = true →
      encoder_compress_buffer hwOk e w =
        (e, 0, [CompressCall.omx w ((e.run.omxs.getD []).getD w none)])) ∧
    (e.run.type = EncType.omx → hwOk = false →
      (encoder_compress_buffer hwOk e w).1.run.type = EncType.cpu ∧
      (encoder_compress_buffer hwOk e w).2.1 = -1 ∧
      (encoder_compress_buffer hwOk e w).2.2 =
        [CompressCall.omx w ((e.run.omxs.getD []).getD w none)] ∧
      CompressCall.cpu ∉ (encoder_compress_buffer hwOk e w).2.2) := by
  refine ⟨fun h => ?_, fun h hw => ?_, fun h hw => ?_⟩
  · simp [encoder_compress_buffer, h]
  · subst hw
    simp [encoder_compress_buffer, h]
  · subst hw
    simp [encoder_compress_buffer, h]

/-- Witness for C3: a single-slot hardware encoder whose instance fails:
the variant flips to CPU, the call fails, nothing was retried on CPU. -/
theorem compress_routing_witness :
    (encoder_compress_buffer false ⟨EncType.omx, 80, ⟨EncType.omx, some [some 7]⟩⟩ 0).1.run.type =
      EncType.cpu ∧
    (encoder_compress_buffer false ⟨EncType.omx, 80, ⟨EncType.omx, some [some 7]⟩⟩ 0).2.1 = -1 ∧
    (encoder_compress_buffer false ⟨EncType.omx, 80, ⟨EncType.omx, some [some 7]⟩⟩ 0).2.2 =
      [CompressCall.omx 0 (some 7)] ∧
    CompressCall.cpu ∉
      (encoder_compress_buffer false ⟨EncType.omx, 80, ⟨EncType.omx, some [some 7]⟩⟩ 0).2.2 := by
  have h := (compress_routing ⟨EncType.omx, 80, ⟨EncType.omx, some [some 7]⟩⟩ false 0).2.2
    rfl rfl
  exact ⟨h.1, h.2.1, h.2.2.1, h.2.2.2⟩

/-- C2 counterexample: the claim's final clause — "only an explicit
re-selection followed by a successful prepare can restore the hardware
variant" — fails on the code.  The selected variant (`encoder->type`) is
not cleared by a fallback, and `encoder_prepare` line 69 copies it back
into the runtime tag.  Concretely: a hardware encoder falls back to CPU
through a failing `encoder_compress_buffer`, and a later
`encoder_prepare` alone (no re-selection in between, the selection is the
one made before the failure) restores the hardware variant. -/
theorem prepare_alone_restores_hardware :
    ((encoder_compress_buffer false ⟨EncType.omx, 80, ⟨EncType.omx, some [some 1, some 2]⟩⟩
        0).1).run.type = EncType.cpu ∧
    (encoder_prepare 4 (fun i => some (10 + i))
        ((encoder_compress_buffer false ⟨EncType.omx, 80, ⟨EncType.omx, some [some 1, some 2]⟩⟩
          0).1) 2).1.run.type = EncType.omx := by
  exact ⟨rfl, rfl⟩

theorem applyOp_preserves_cpu (e : Encoder) (op : EncOp) (h : e.run.type = EncType.cpu) :
    (applyOp e op).run.type = EncType.cpu := by
  cases op with
  | prepareLive liveOk => simp [applyOp, encoder_prepare_live, h]
  | compress hwOk w => simp [applyOp, encoder_compress_buffer, h]

/-- C2 (amended): once the runtime variant is Software, no sequence of
`prepare_live` / `compress` calls (the operations the claim quantifies
over) ever makes it hardware again, whatever their hardware outcomes; and
a subsequent successful `encoder_prepare` with the hardware backend still
selected does restore the hardware variant — no fresh re-selection is
needed, because the fallback only overwrites the runtime tag, not the
selection. -/
theorem fallback_monotonic :
    (∀ (e : Encoder) (ops : List EncOp), e.run.type = EncType.cpu →
      (applyOps e ops).run.type = EncType.cpu) ∧
    (∀ (maxE : Nat) (alloc : Nat → Option Nat) (e : Encoder) (w : Nat),
      e.type = EncType.omx → (∀ i, i < min w maxE → (alloc i).isSome = true) →
      (encoder_prepare maxE alloc e w).1.run.type = EncType.omx) := by
  constructor
  · intro e ops
    induction ops generalizing e with
    | nil => intro h; exact h
    | cons op ops ih =>
      intro h
      exact ih _ (applyOp_preserves_cpu e op h)
  · intro maxE alloc e w hsel hall
    have hmin : (if w > maxE then maxE else w) = min w maxE := by
      rcases Nat.lt_or_ge maxE w with h | h
      · rw [if_pos h, Nat.min_eq_right (by omega)]
      · rw [if_neg (by omega), Nat.min_eq_left (by omega)]
    have hofill : (fillSlots alloc 0 (if w > maxE then maxE else w)).2 = true := by
      rw [fillSlots_ok_iff]
      intro j hj
      rw [Nat.zero_add]
      rw [hmin] at hj
      exact hall j hj
    simp [encoder_prepare, hsel, hofill]

/-- Witness for C2: a fallen-back two-slot encoder stays CPU through a
live re-preparation and two compressions; the same encoder with its
hardware selection intact returns to hardware through a plain prepare. -/
theorem fallback_monotonic_witness :
    (applyOps ⟨EncType.omx, 80, ⟨EncType.cpu, some [some 1, some 2]⟩⟩
        [EncOp.prepareLive (fun _ => true), EncOp.compress true 0,
          EncOp.compress false 1]).run.type = EncType.cpu ∧
    (encoder_prepare 4 (fun i => some (10 + i))
        ⟨EncType.omx, 80, ⟨EncType.cpu, some [some 1, some 2]⟩⟩ 2).1.run.type = EncType.omx :=
  ⟨fallback_monotonic.1 ⟨EncType.omx, 80, ⟨EncType.cpu, some [some 1, some 2]⟩⟩ _ rfl,
    fallback_monotonic.2 4 (fun i => some (10 + i))
      ⟨EncType.omx, 80, ⟨EncType.cpu, some [some 1, some 2]⟩⟩ 2 rfl
      (by intro i hi; rfl)⟩

/-- C7: `prepare(worker_count)` with the hardware variant selected.  A
worker count above the backend's maximum concurrent-instance count is
clamped down to that maximum and the clamp is logged (the call itself is
total — never fatal); if any single hardware-instance allocation among
the clamped slots fails, the runtime variant falls back to Software
(all-or-nothing) with the fallback logged; if every allocation succeeds
the hardware variant stands. -/
theorem prepare_clamp_and_fallback (maxE : Nat) (alloc : Nat → Option Nat) (e : Encoder)
    (w : Nat) (hsel : e.type = EncType.omx) :
    (encoder_prepare maxE alloc e w).2.1 = min w maxE ∧
    (w > maxE → LogEv.clampWorkers maxE ∈ (encoder_prepare maxE alloc e w).2.2) ∧
    ((∃ i, i < min w maxE ∧ alloc i = none) →
      (encoder_prepare maxE alloc e w).1.run.type = EncType.cpu ∧
      LogEv.fallbackPrepare ∈ (encoder_prepare maxE alloc e w).2.2) ∧
    ((∀ i, i < min w maxE → (alloc i).isSome = true) →
      (encoder_prepare maxE alloc e w).1.run.type = EncType.omx) := by
  have hmin : (if w > maxE then maxE else w) = min w maxE := by
    rcases Nat.lt_or_ge maxE w with h | h
    · rw [if_pos h, Nat.min_eq_right (by omega)]
    · rw [if_neg (by omega), Nat.min_eq_left (by omega)]
  have hiff := fillSlots_ok_iff alloc (if w > maxE then maxE else w) 0
  refine ⟨?_, ?_, ?_, ?_⟩
  · rw [← hmin]
    simp only [encoder_prepare, hsel]
    split <;> split <;> rfl
  · intro hclamp
    simp only [encoder_prepare, hsel]
    split
    · split <;> simp
    · exfalso
      omega
  · rintro ⟨i, hi, hnone⟩
    have hok : (fillSlots alloc 0 (if w > maxE then maxE else w)).2 = false := by
      cases hb : (fillSlots alloc 0 (if w > maxE then maxE else w)).2 with
      | false => rfl
      | true =>
        exfalso
        have := (hiff.mp hb) i (by rw [hmin]; omega)
        rw [Nat.zero_add, hnone] at this
        exact absurd this (by simp)
    constructor
    · simp [encoder_prepare, hsel, hok]
    · simp [encoder_prepare, hsel, hok]
  · intro hall
    have hok : (fillSlots alloc 0 (if w > maxE then maxE else w)).2 = true := by
      rw [hiff]
      intro j hj
      rw [Nat.zero_add]
      rw [hmin] at hj
      exact hall j hj
    simp [encoder_prepare, hsel, hok]

/-- Witness for C7: hardware backend with maximum 3 concurrent instances,
5 requested workers (clamped to 3, logged), and an allocation failure on
slot 2: the variant falls back to CPU with the fallback logged. -/
theorem prepare_clamp_and_fallback_witness :
    (encoder_prepare 3 (fun i => if i = 2 then none else some (100 + i))
        ⟨EncType.omx, 80, ⟨EncType.cpu, none⟩⟩ 5).2.1 = min 5 3 ∧
    LogEv.clampWorkers 3 ∈ (encoder_prepare 3 (fun i => if i = 2 then none else some (100 + i))
        ⟨EncType.omx, 80, ⟨EncType.cpu, none⟩⟩ 5).2.2 ∧
    (encoder_prepare 3 (fun i => if i = 2 then none else some (100 + i))
        ⟨EncType.omx, 80, ⟨EncType.cpu, none⟩⟩ 5).1.run.type = EncType.cpu := by
  have h := prepare_clamp_and_fallback 3 (fun i => if i = 2 then none else some (100 + i))
    ⟨EncType.omx, 80, ⟨EncType.cpu, none⟩⟩ 5 rfl
  exact ⟨h.1, h.2.1 (by omega), (h.2.2.1 ⟨2, by omega, rfl⟩).1⟩

/-- C5 counterexample: `encoder_destroy` is not idempotent.  It
unconditionally dereferences `encoder->run` and frees both heap blocks
(lines 118-119), so a second call on the same encoder — here the state
left by a partially-failed prepare, slots `[some 1, none, some 3]` — is a
use-after-free / double-free, undefined behaviour in C (modelled as
`none`), refuting "calling destroy twice in a row never crashes". -/
theorem destroy_twice_is_use_after_free :
    (encoder_destroy ⟨true, some [some 1, none, some 3]⟩).bind
      (fun p => encoder_destroy p.1) = none := rfl

/-- C5 (amended): a single `encoder_destroy` call never crashes, also on
the holey slot arrays a partially-failed `encoder_prepare` leaves behind:
it releases exactly the successfully allocated hardware instances, in
ascending slot order, skipping null slots, then frees the slot array, the
runtime state and the encoder.  (Calling destroy a second time on the
same object is a double free — see the counterexample.) -/
theorem destroy_hole_tolerant :
    (∀ o : EncObj, o.live = true → (encoder_destroy o).isSome = true) ∧
    (∀ (maxE : Nat) (alloc : Nat → Option Nat) (e : Encoder) (w : Nat),
      e.type = EncType.omx →
      ∃ k, k ≤ min w maxE ∧
        (∀ j, j < k → (alloc j).isSome = true) ∧
        encoder_destroy (EncObj.ofEncoder (encoder_prepare maxE alloc e w).1) =
          some (⟨false, none⟩,
            ((List.range k).filterMap alloc).map DestroyAct.releaseOmx ++
              [DestroyAct.freeOmxArray, DestroyAct.freeRun, DestroyAct.freeEncoder])) := by
  constructor
  · intro o h
    simp [encoder_destroy, h]
  · intro maxE alloc e w hsel
    have hmin : (if w > maxE then maxE else w) = min w maxE := by
      rcases Nat.lt_or_ge maxE w with h | h
      · rw [if_pos h, Nat.min_eq_right (by omega)]
      · rw [if_neg (by omega), Nat.min_eq_left (by omega)]
    obtain ⟨k, hk, heq, hsome⟩ := fillSlots_filterMap alloc (if w > maxE then maxE else w) 0
    have hfun : (fun j => alloc (0 + j)) = alloc := by
      funext j
      rw [Nat.zero_add]
    rw [hfun] at heq
    rw [hmin] at hk
    refine ⟨k, hk, fun j hj => by have := hsome j hj; rwa [Nat.zero_add] at this, ?_⟩
    have homxs : (encoder_prepare maxE alloc e w).1.run.omxs =
        some (fillSlots alloc 0 (if w > maxE then maxE else w)).1 := by
      simp only [encoder_prepare, hsel]
      split <;> split <;> rfl
    have hobj : EncObj.ofEncoder (encoder_prepare maxE alloc e w).1 =
        ⟨true, some (fillSlots alloc 0 (if w > maxE then maxE else w)).1⟩ := by
      rw [EncObj.ofEncoder, homxs]
    rw [hobj]
    simp only [encoder_destroy, if_true]
    rw [heq]
    simp [List.append_assoc]

/-- Witness for C5: destroy of a live holey object succeeds; destroy
after a prepare whose slot-2 allocation failed releases instances 100 and
101 in slot order, skips the hole, then frees everything once. -/
theorem destroy_hole_tolerant_witness :
    (encoder_destroy ⟨true, some [some 5, none]⟩).isSome = true ∧
    (∃ k, k ≤ min 5 3 ∧
      (∀ j, j < k → ((fun i => if i = 2 then none else some (100 + i)) j).isSome = true) ∧
      encoder_destroy (EncObj.ofEncoder
          (encoder_prepare 3 (fun i => if i = 2 then none else some (100 + i))
            ⟨EncType.omx, 80, ⟨EncType.cpu, none⟩⟩ 5).1) =
        some (⟨false, none⟩,
          ((List.range k).filterMap (fun i => if i = 2 then none else some (100 + i))).map
              DestroyAct.releaseOmx ++
            [DestroyAct.freeOmxArray, DestroyAct.freeRun, DestroyAct.freeEncoder])) :=
  ⟨destroy_hole_tolerant.1 ⟨true, some [some 5, none]⟩ rfl,
    destroy_hole_tolerant.2 3 (fun i => if i = 2 then none else some (100 + i))
      ⟨EncType.omx, 80, ⟨EncType.cpu, none⟩⟩ 5 rfl⟩

end UStreamer
